import Mathlib

/-!
Verification of julienschmidt/remotephotoshow against its specification.

The development shallowly embeds the Go sources:
* `Broker` — the SSE broker control loop (`Broker.listen`, `server.go`
  lines 121–144; the `chan []byte` variant in `src/unnamed/part_001`
  lines 100–122 is identical up to the event element type).
* `Serve` — the per-connection streaming handler (`Broker.ServeHTTP`).
* `Server` — the show-state controller of `server.go`
  (`reset`, `setID`, `loadPhotos`, `PhotosJSON`, `BasicAuth`).
* `P0` — the variant in `src/unnamed/part_000`, whose `loadPhotos`
  additionally recomputes `endID` with `uint64` arithmetic.

Machine integers: `uint`/`uint64` values are embedded as `Nat`; the one
place the Go code can overflow (`uint64(len(filenames)) - 1` in
`part_000`) is embedded with an explicit `% 2 ^ 64`.
-/

namespace Broker

/-- State of the broker's control loop (`server.go` lines 48–60).
Clients are the `chan string` values registered in the Go map
`clients map[chan string]bool`; we identify a client channel by a
natural number.  `queues h` records, oldest first, the events that the
control loop has sent into client `h`'s channel. -/
structure BrokerState where
  clients : Finset Nat
  queues : Nat → List String

/-- The three requests the control loop serves (`newClients`,
`closingClients`, `Notifier` in `Broker.listen`). -/
inductive Op where
  | register (h : Nat)
  | deregister (h : Nat)
  | publish (e : String)
deriving DecidableEq

/-- One iteration of the `select` in `Broker.listen`
(`server.go` lines 121–144):
`register` does `broker.clients[s] = true`, `deregister` does
`delete(broker.clients, s)`, and `publish` ranges over the registry and
sends the event to every registered client channel. -/
def step (s : BrokerState) : Op → BrokerState
  | Op.register h => { s with clients := insert h s.clients }
  | Op.deregister h => { s with clients := s.clients.erase h }
  | Op.publish e =>
      { s with queues := fun h =>
          if h ∈ s.clients then s.queues h ++ [e] else s.queues h }

/-- Broker state right after `NewServer`: empty registry, nothing sent. -/
def init : BrokerState := ⟨∅, fun _ => []⟩

/-- Run the control loop over a finite sequence of requests from `s`. -/
def runFrom (s : BrokerState) (ops : List Op) : BrokerState :=
  ops.foldl step s

/-- Run the control loop over a finite sequence of requests from `init`. -/
def run (ops : List Op) : BrokerState := runFrom init ops

/-- Per-handle projection of a request sequence: the events published
while handle `h` is registered (`reg` is its current registration
status), in publish order. -/
def received (h : Nat) : Bool → List Op → List String
  | _, [] => []
  | reg, Op.register g :: rest => received h (if g = h then true else reg) rest
  | reg, Op.deregister g :: rest => received h (if g = h then false else reg) rest
  | reg, Op.publish e :: rest =>
      if reg then e :: received h reg rest else received h reg rest

lemma runFrom_nil (s : BrokerState) : runFrom s [] = s := rfl

lemma runFrom_cons (s : BrokerState) (op : Op) (ops : List Op) :
    runFrom s (op :: ops) = runFrom (step s op) ops := rfl

lemma runFrom_queues (ops : List Op) : ∀ (s : BrokerState) (h : Nat),
    (runFrom s ops).queues h
      = s.queues h ++ received h (decide (h ∈ s.clients)) ops := by
  induction ops with
  | nil => intro s h; simp [runFrom_nil, received]
  | cons op rest ih =>
    intro s h
    rw [runFrom_cons]
    cases op with
    | register g =>
      rw [ih]
      have hc : decide (h ∈ (step s (Op.register g)).clients)
          = (if g = h then true else decide (h ∈ s.clients)) := by
        by_cases hg : g = h
        · subst hg; simp [step, Finset.mem_insert]
        · simp [step, Finset.mem_insert, Ne.symm hg, hg]
      have hq : (step s (Op.register g)).queues = s.queues := rfl
      rw [hq, hc, received]
    | deregister g =>
      rw [ih]
      have hc : decide (h ∈ (step s (Op.deregister g)).clients)
          = (if g = h then false else decide (h ∈ s.clients)) := by
        by_cases hg : g = h
        · subst hg; simp [step, Finset.mem_erase]
        · simp [step, Finset.mem_erase, Ne.symm hg, hg]
      have hq : (step s (Op.deregister g)).queues = s.queues := rfl
      rw [hq, hc, received]
    | publish e =>
      rw [ih]
      have hc : (step s (Op.publish e)).clients = s.clients := rfl
      rw [hc]
      by_cases hm : h ∈ s.clients
      · simp [step, received, hm]
      · simp [step, received, hm]

/-- C1: for every request sequence processed by the control loop, the
events sent to handle `h` are exactly the events published while `h`
was registered, in publish order (so each such publish enqueues exactly
one copy, and nothing published after `h`'s deregistration reaches it);
and a publish processed on an empty registry changes no queue at all
(the event is dropped). -/
theorem broker_fanout :
    (∀ (ops : List Op) (h : Nat),
      (run ops).queues h = received h false ops)
    ∧ (∀ (s : BrokerState) (e : String), s.clients = ∅ →
      (step s (Op.publish e)).queues = s.queues) := by
  constructor
  · intro ops h
    have := runFrom_queues ops init h
    simpa [run, init] using this
  · intro s e hs
    funext h
    simp [step, hs]

theorem broker_fanout_witness :
    (run [Op.register 0, Op.publish "a", Op.deregister 0,
          Op.publish "b"]).queues 0 = ["a"]
    ∧ (step init (Op.publish "x")).queues = init.queues :=
  ⟨(broker_fanout.1 [Op.register 0, Op.publish "a", Op.deregister 0,
      Op.publish "b"] 0).trans (by decide),
   broker_fanout.2 init "x" rfl⟩

/-- Registers in a request sequence whose handle is absent from the
registry (tracking registry contents `c`) at the moment the register is
processed. -/
def regsAbsentFrom (c : Finset Nat) : List Op → Nat
  | [] => 0
  | Op.register h :: rest =>
      (if h ∈ c then 0 else 1) + regsAbsentFrom (insert h c) rest
  | Op.deregister h :: rest => regsAbsentFrom (c.erase h) rest
  | Op.publish _ :: rest => regsAbsentFrom c rest

/-- Deregisters in a request sequence whose handle is present in the
registry at the moment the deregister is processed. -/
def deregsPresentFrom (c : Finset Nat) : List Op → Nat
  | [] => 0
  | Op.register h :: rest => deregsPresentFrom (insert h c) rest
  | Op.deregister h :: rest =>
      (if h ∈ c then 1 else 0) + deregsPresentFrom (c.erase h) rest
  | Op.publish _ :: rest => deregsPresentFrom c rest

/-- Total number of register requests in a sequence. -/
def regsCount : List Op → Nat
  | [] => 0
  | Op.register _ :: rest => regsCount rest + 1
  | _ :: rest => regsCount rest

def regsAbsent (ops : List Op) : Nat := regsAbsentFrom ∅ ops

def deregsPresent (ops : List Op) : Nat := deregsPresentFrom ∅ ops

lemma clients_card_runFrom (ops : List Op) : ∀ s : BrokerState,
    ((runFrom s ops).clients.card : Int)
      = s.clients.card + regsAbsentFrom s.clients ops
          - deregsPresentFrom s.clients ops := by
  induction ops with
  | nil => intro s; simp [runFrom_nil, regsAbsentFrom, deregsPresentFrom]
  | cons op rest ih =>
    intro s
    rw [runFrom_cons]
    cases op with
    | register g =>
      have hstep : (step s (Op.register g)).clients = insert g s.clients := rfl
      rw [ih, hstep, regsAbsentFrom, deregsPresentFrom]
      by_cases hg : g ∈ s.clients
      · rw [Finset.insert_eq_self.2 hg]
        simp [hg]
      · rw [Finset.card_insert_of_not_mem hg]
        simp [hg]
        omega
    | deregister g =>
      have hstep : (step s (Op.deregister g)).clients = s.clients.erase g := rfl
      rw [ih, hstep, regsAbsentFrom, deregsPresentFrom]
      by_cases hg : g ∈ s.clients
      · rw [Finset.card_erase_of_mem hg]
        have hpos : 1 ≤ s.clients.card := Finset.card_pos.2 ⟨g, hg⟩
        simp [hg]
        omega
      · rw [Finset.erase_eq_of_not_mem hg]
        simp [hg]
    | publish e =>
      have hstep : (step s (Op.publish e)).clients = s.clients := rfl
      rw [ih, hstep, regsAbsentFrom, deregsPresentFrom]

/-- C2 (counterexample): registering the same handle twice — the Go map
assignment `broker.clients[s] = true` with a key already present — does
not grow the registry, so the registry size is not in general the
number of registers minus the number of deregisters-of-present-handles. -/
theorem registry_size_counterexample :
    ¬ (((run [Op.register 0, Op.register 0]).clients.card : Int)
        = regsCount [Op.register 0, Op.register 0]
            - deregsPresent [Op.register 0, Op.register 0]) := by
  decide

/-- C2 (amended): after any finite request sequence the registry size
equals the number of registers whose handle was absent when registered
minus the number of deregisters whose handle was present when
deregistered, and that difference is never negative at any intermediate
point of the sequence. -/
theorem registry_size_amended :
    ∀ ops : List Op,
      ((run ops).clients.card : Int) = regsAbsent ops - deregsPresent ops
      ∧ ∀ n : Nat,
          0 ≤ (regsAbsent (ops.take n) : Int) - deregsPresent (ops.take n) := by
  intro ops
  constructor
  · have := clients_card_runFrom ops init
    simpa [run, init, regsAbsent, deregsPresent] using this
  · intro n
    have := clients_card_runFrom (ops.take n) init
    have hcard : (0 : Int) ≤ ((run (ops.take n)).clients.card : Int) := by
      exact_mod_cast Nat.zero_le _
    rw [run] at hcard
    rw [this] at hcard
    simpa [init, regsAbsent, deregsPresent] using hcard

/-- C8: deregistering a handle twice leaves the broker in the same state
as deregistering it once, and deregistering a handle that is not in the
registry leaves the state unchanged (a no-op, not an error). -/
theorem deregister_idempotent :
    ∀ (s : BrokerState) (h : Nat),
      step (step s (Op.deregister h)) (Op.deregister h)
        = step s (Op.deregister h)
      ∧ (h ∉ s.clients → step s (Op.deregister h) = s) := by
  intro s h
  constructor
  · cases s with
    | mk c q => simp [step, Finset.erase_idem]
  · intro hnm
    cases s with
    | mk c q =>
      simp only [step]
      simp only at hnm
      rw [Finset.erase_eq_of_not_mem hnm]

theorem deregister_idempotent_witness :
    step (step init (Op.deregister 5)) (Op.deregister 5)
      = step init (Op.deregister 5)
    ∧ step init (Op.deregister 5) = init :=
  ⟨(deregister_idempotent init 5).1,
   (deregister_idempotent init 5).2 (by decide)⟩

end Broker

namespace Serve

/-- What can happen to one streaming connection after registration
(`Broker.ServeHTTP`, `server.go` lines 77–119): the close notification
fires (`<-notify`), or one iteration of the write loop completes with a
write success or failure. -/
inductive ConnEvent where
  | closeNotify
  | write (ok : Bool)
deriving DecidableEq

/-- State of one connection's handler.  `closedSignaled` records that
the close-notification goroutine has already consumed `<-notify` (the
`CloseNotifier` channel fires at most once, and the goroutine reads it
once and exits); `deregSends` counts the sends on
`broker.closingClients` issued so far for this connection's channel;
`handlerReturned` records whether `ServeHTTP` itself has returned,
which would run the deferred second send. -/
structure ConnState where
  closedSignaled : Bool
  deregSends : Nat
  handlerReturned : Bool
deriving DecidableEq

/-- One observable event of the handler.  On `closeNotify` the goroutine
at `server.go` lines 106–109 sends one deregister.  A write iteration
(`fmt.Fprintf` at line 114) discards the write error, and the `for` loop at
lines 111–118 has no `break` or `return`, so a failed write changes
nothing and the handler never returns. -/
def serveStep (s : ConnState) : ConnEvent → ConnState
  | ConnEvent.closeNotify =>
      if s.closedSignaled then s
      else { s with closedSignaled := true, deregSends := s.deregSends + 1 }
  | ConnEvent.write _ => s

/-- Handler state at registration time. -/
def connInit : ConnState := ⟨false, 0, false⟩

def serveRun (evs : List ConnEvent) : ConnState := evs.foldl serveStep connInit

/-- Deregisters issued for the connection's handle, counting the
deferred send at `server.go` lines 99–101, which runs only if the
handler returns. -/
def totalDeregs (s : ConnState) : Nat :=
  s.deregSends + (if s.handlerReturned then 1 else 0)

end Serve

/-- One entry returned by `dir.Readdir(-1)`: a file name and whether the
entry is itself a directory. -/
structure FileInfo where
  name : String
  isDir : Bool
deriving DecidableEq

/-- Outcome of the filesystem interactions performed by `loadPhotos`,
abstracting `os.Open`, `dir.Stat` and `dir.Readdir(-1)`: each error
return site of the Go function gets a constructor, and `stat` carries
whether the opened path is a directory together with the entries
`Readdir` would yield. -/
inductive DirRead where
  | openErr (msg : String)
  | statErr (msg : String)
  | readdirErr (msg : String)
  | stat (isDir : Bool) (entries : List FileInfo)
deriving DecidableEq

/-- Reply of the `/photos.json` handler: a 500 error page carrying the
stored error text, or the JSON object with the photo names and the
current image id. -/
inductive Resp where
  | errorResp (msg : String) (status : Nat)
  | okResp (photos : List String) (id : Nat)
deriving DecidableEq

namespace Server

/-- The process-wide show state of `server.go` (globals at lines 40–46,
without the broker): current image id, last valid id, the cached photo
list (the marshalled JSON is represented by the list of file names it
encodes) and the stored rescan error. -/
structure ServerState where
  imgID : Nat
  endID : Nat
  photoJSON : Option (List String)
  photoErr : Option String
deriving DecidableEq

/-- `loadPhotos` (`server.go` lines 192–219): fails if open or stat
fails; otherwise, when the path is a directory, lists it (which can
fail) and keeps the names of the non-directory entries.  Note this
variant does not touch `endID`. -/
def loadPhotos (d : DirRead) : Except String (List String) :=
  match d with
  | DirRead.openErr m => Except.error m
  | DirRead.statErr m => Except.error m
  | DirRead.readdirErr m => Except.error m
  | DirRead.stat isDir entries =>
      Except.ok (if isDir then
        (entries.filter (fun fi => !fi.isDir)).map FileInfo.name
      else [])

/-- `reset` (`server.go` lines 172–177): zero `imgID`, replace
`photoJSON`/`photoErr` with the outcome of `loadPhotos` (on error the
Go multiple assignment stores `nil` in `photoJSON`), then send the
event `"r"` into `broker.Notifier`.  The second component lists the
events published by the call. -/
def reset (d : DirRead) (s : ServerState) : ServerState × List String :=
  let s1 := { s with imgID := 0 }
  match loadPhotos d with
  | Except.ok names =>
      ({ s1 with photoJSON := some names, photoErr := none }, ["r"])
  | Except.error m =>
      ({ s1 with photoJSON := none, photoErr := some m }, ["r"])

/-- `setID` (`server.go` lines 180–189): reject ids above `endID` with
an error, leaving the state untouched and publishing nothing; otherwise
store the id and publish the one event `fmt.Sprintf("s%d", id)`.  The
first component is the returned error, the last the published events. -/
def setID (id : Nat) (s : ServerState) : Option String × ServerState × List String :=
  if id > s.endID then (some "Invalid ID", s, [])
  else (none, { s with imgID := id }, ["s" ++ Nat.repr id])

/-- `PhotosJSON` (`server.go` lines 253–262): if a rescan error is
stored, reply 500 with its text; otherwise reply with the photo list
and the current image id. -/
def PhotosJSON (s : ServerState) : Resp :=
  match s.photoErr with
  | some m => Resp.errorResp m 500
  | none => Resp.okResp (s.photoJSON.getD []) s.imgID

/-- The wire frame written per event by `Broker.ServeHTTP`
(`server.go` line 114): `fmt.Fprintf(rw, "data: %s\n\n", <-messageChan)`. -/
def frame (payload : String) : String := "data: " ++ payload ++ "\n\n"

/-- Leading tag byte of an event string (`"r"` or `"s%d"`). -/
def eventTag (e : String) : List Char := e.data.take 1

/-- Event string with its leading tag byte removed. -/
def eventBody (e : String) : List Char := e.data.drop 1

/-- Credentials configured at `server.go` lines 36–37. -/
def username : String := "gordon"

/-- See `username`. -/
def password : String := "secret!"

/-- Bytes of an ASCII string, as Go's `[]byte` conversion yields for the
ASCII credential constants. -/
def strBytes (s : String) : List Nat := s.data.map Char.toNat

/-- `user := []byte(username)` (`server.go` line 273). -/
def userBytes : List Nat := strBytes username

/-- `pass := []byte(password)` (`server.go` line 274). -/
def passBytes : List Nat := strBytes password

/-- Value of one character in the standard base64 alphabet, `none` for
a character outside it. -/
def b64Val (c : Char) : Option Nat :=
  if 'A' ≤ c ∧ c ≤ 'Z' then some (c.toNat - 65)
  else if 'a' ≤ c ∧ c ≤ 'z' then some (c.toNat - 97 + 26)
  else if '0' ≤ c ∧ c ≤ '9' then some (c.toNat - 48 + 52)
  else if c = '+' then some 62
  else if c = '/' then some 63
  else none

/-- Base64 decoding of four-character groups, as
`base64.StdEncoding.DecodeString` treats them: the input length must be
a multiple of four, `=` padding may appear only at the end ( `xx==`
yields one byte, `xxx=` two), and anything outside the alphabet is an
error.  The default (non-strict) Go decoder ignores leftover bits of a
final partial quantum, as modelled by the truncating divisions. -/
def decodeGroups : List Char → Option (List Nat)
  | [] => some []
  | c1 :: c2 :: c3 :: c4 :: rest =>
    match b64Val c1, b64Val c2 with
    | some a, some b =>
      if c3 = '=' then
        if c4 = '=' ∧ rest = [] then some [a * 4 + b / 16]
        else none
      else
        match b64Val c3 with
        | some c =>
          if c4 = '=' then
            if rest = [] then some [a * 4 + b / 16, b % 16 * 16 + c / 4]
            else none
          else
            match b64Val c4 with
            | some d =>
              match decodeGroups rest with
              | some bs => some ([a * 4 + b / 16, b % 16 * 16 + c / 4, c % 4 * 64 + d] ++ bs)
              | none => none
            | none => none
        | none => none
    | _, _ => none
  | _ => none

/-- `base64.StdEncoding.DecodeString`: the Go decoder skips carriage
returns and newlines, then decodes four-character quanta. -/
def decodeB64 (s : String) : Option (List Nat) :=
  decodeGroups (s.data.filter (fun c => c != '\n' && c != '\r'))

/-- `bytes.SplitN(payload, []byte(":"), 2)` (`server.go` line 157):
split around the first `sep` byte, or return the whole slice as a
single element when `sep` does not occur. -/
def splitN2 (l : List Nat) (sep : Nat) : List (List Nat) :=
  if sep ∈ l then
    [l.takeWhile (fun x => x != sep), (l.dropWhile (fun x => x != sep)).drop 1]
  else [l]

/-- The response visible to the `/master` caller: HTTP status, the
`WWW-Authenticate` header if set, the events published to the broker
while handling the request, and whether the show state was mutated. -/
structure HResponse where
  status : Nat
  wwwAuth : Option String
  published : List String
  mutated : Bool
deriving DecidableEq

/-- The fallthrough of `BasicAuth` (`server.go` lines 166–168): set
`WWW-Authenticate: Basic realm=Restricted` and reply 401, without
having touched the show state or the broker. -/
def unauthorized : HResponse := ⟨401, some "Basic realm=Restricted", [], false⟩

/-- The credential test of `BasicAuth` (`server.go` lines 149–163):
`strings.HasPrefix(auth, "Basic ")`, then base64-decoding of the byte
slice `auth[6:]`, then `len(pair) == 2 && bytes.Equal(pair[0], user) &&
bytes.Equal(pair[1], pass)` on the colon split.  The prefix test and
the slice are embedded on the character list; the prefix consists of
six one-byte characters, so Go's byte indexing agrees with the
character indexing whenever the prefix test passes. -/
def checkAuth (user pass : List Nat) (auth : String) : Bool :=
  if auth.data.take 6 = "Basic ".data then
    match decodeB64 (String.mk (auth.data.drop 6)) with
    | some payload =>
        let pair := splitN2 payload 58
        pair.length == 2 && pair.getD 0 [] == user && pair.getD 1 [] == pass
    | none => false
  else false

/-- `BasicAuth` (`server.go` lines 147–170): delegate to the wrapped
handler exactly when the credential test passes, otherwise produce the
401 response.  `h` is the response the wrapped handler would produce. -/
def BasicAuth (h : HResponse) (user pass : List Nat) (auth : String) : HResponse :=
  if checkAuth user pass auth then h else unauthorized

end Server

namespace P0

/-- `2 ^ 64`, the modulus of Go's `uint64` arithmetic. -/
def U64 : Nat := 2 ^ 64

/-- The process-wide show state of the `src/unnamed/part_000` variant
(globals at its lines 40–46): as `Server.ServerState`, but `imgID` and
`endID` are `uint64` values, embedded as naturals below `2 ^ 64`. -/
structure PState where
  imgID : Nat
  endID : Nat
  photoJSON : Option (List String)
  photoErr : Option String
deriving DecidableEq

/-- `loadPhotos` of `part_000` (lines 94–122): as the `server.go`
version, but before returning it assigns
`endID = uint64(len(filenames)) - 1`, a wrapping `uint64` subtraction,
embedded as `(len + (2 ^ 64 - 1)) % 2 ^ 64`.  On the error paths the
function returns early and `endID` is untouched. -/
def loadPhotos (d : DirRead) (s : PState) : PState × Except String (List String) :=
  match d with
  | DirRead.openErr m => (s, Except.error m)
  | DirRead.statErr m => (s, Except.error m)
  | DirRead.readdirErr m => (s, Except.error m)
  | DirRead.stat isDir entries =>
      let filenames := if isDir then
          (entries.filter (fun fi => !fi.isDir)).map FileInfo.name
        else []
      ({ s with endID := (filenames.length + (U64 - 1)) % U64 }, Except.ok filenames)

/-- `reset` of `part_000` (lines 74–79): zero `imgID`, store the
outcome of `loadPhotos` (which may update `endID`), then call
`streamer.SendString("", "reset", "")`.  Published events are
(event-type, data) pairs; the event id argument is always empty. -/
def reset (d : DirRead) (s : PState) : PState × List (String × String) :=
  let s1 := { s with imgID := 0 }
  match loadPhotos d s1 with
  | (s2, Except.ok names) =>
      ({ s2 with photoJSON := some names, photoErr := none }, [("reset", "")])
  | (s2, Except.error m) =>
      ({ s2 with photoJSON := none, photoErr := some m }, [("reset", "")])

/-- `setID` of `part_000` (lines 82–91): as the `server.go` version,
but the one published event is `streamer.SendUint("", "set", id)`,
whose data is the decimal of `id`. -/
def setID (id : Nat) (s : PState) : Option String × PState × List (String × String) :=
  if id > s.endID then (some "invalid ID", s, [])
  else (none, { s with imgID := id }, [("set", Nat.repr id)])

/-- `PhotosJSON` of `part_000` (lines 156–165), same as the `server.go`
version. -/
def PhotosJSON (s : PState) : Resp :=
  match s.photoErr with
  | some m => Resp.errorResp m 500
  | none => Resp.okResp (s.photoJSON.getD []) s.imgID

/-- Modelled from the spec: the package `github.com/julienschmidt/sse`
(the `sse.Streamer` whose `SendString`/`SendUint` the `part_000`
variant calls) is not under `src/`.  Per the spec's wire framing, each
event is one frame ending in `data: <payload>\n\n`, with a dedicated
event-type field line for a tagged event; the event id argument is
empty throughout `part_000`, so no id line is written. -/
def sseFrame (eventType data : String) : String :=
  (if eventType = "" then "" else "event: " ++ eventType ++ "\n")
    ++ "data: " ++ data ++ "\n\n"

end P0

lemma string_data_append (s t : String) : (s ++ t).data = s.data ++ t.data := by
  cases s; cases t; rfl

lemma serveFold_spec (evs : List Serve.ConnEvent) : ∀ s : Serve.ConnState,
    ((evs.foldl Serve.serveStep s).handlerReturned = s.handlerReturned)
    ∧ ((evs.foldl Serve.serveStep s).deregSends
        = s.deregSends
            + (if s.closedSignaled = false ∧ Serve.ConnEvent.closeNotify ∈ evs
               then 1 else 0))
    ∧ ((evs.foldl Serve.serveStep s).closedSignaled
        = (s.closedSignaled || decide (Serve.ConnEvent.closeNotify ∈ evs))) := by
  induction evs with
  | nil => intro s; simp
  | cons ev rest ih =>
    intro s
    cases ev with
    | closeNotify =>
      by_cases hs : s.closedSignaled
      · have hstep : Serve.serveStep s Serve.ConnEvent.closeNotify = s := by
          simp [Serve.serveStep, hs]
        obtain ⟨h1, h2, h3⟩ := ih s
        refine ⟨by simpa [hstep] using h1, ?_, ?_⟩
        · simp only [List.foldl_cons, hstep]
          rw [h2]
          simp [hs]
        · simp only [List.foldl_cons, hstep]
          rw [h3]
          simp [hs]
      · have hstep : Serve.serveStep s Serve.ConnEvent.closeNotify
            = { s with closedSignaled := true, deregSends := s.deregSends + 1 } := by
          simp [Serve.serveStep, hs]
        obtain ⟨h1, h2, h3⟩ :=
          ih { s with closedSignaled := true, deregSends := s.deregSends + 1 }
        refine ⟨by simpa [hstep] using h1, ?_, ?_⟩
        · simp only [List.foldl_cons, hstep]
          rw [h2]
          simp [hs]
        · simp only [List.foldl_cons, hstep]
          rw [h3]
          simp [hs]
    | write b =>
      have hstep : Serve.serveStep s (Serve.ConnEvent.write b) = s := rfl
      obtain ⟨h1, h2, h3⟩ := ih s
      refine ⟨by simpa [hstep] using h1, ?_, ?_⟩
      · simp only [List.foldl_cons, hstep]
        rw [h2]
        simp
      · simp only [List.foldl_cons, hstep]
        rw [h3]
        simp

/-- C7 (counterexample): a write failure does not terminate the
handler's write loop and triggers no deregistration — after a failed
write (and no close notification) zero deregisters have been issued,
not the one the claim requires for a connection terminated by a write
failure. -/
theorem dereg_on_write_failure_counterexample :
    ¬ (Serve.totalDeregs (Serve.serveRun [Serve.ConnEvent.write false]) = 1) := by
  decide

/-- C7 (amended): deregistration is driven solely by the close
notification: the handler issues exactly one deregister for its handle
when the close notification fires and none otherwise; in particular a
write failure alone triggers nothing (the write error is discarded and
the loop continues), and the deregister is never issued twice — not
because duplicate triggers are deduplicated, but because the write loop
never returns, so the deferred second send never runs. -/
theorem dereg_exactly_once :
    ∀ evs : List Serve.ConnEvent,
      Serve.totalDeregs (Serve.serveRun evs) ≤ 1
      ∧ (Serve.ConnEvent.closeNotify ∈ evs →
          Serve.totalDeregs (Serve.serveRun evs) = 1)
      ∧ (Serve.ConnEvent.closeNotify ∉ evs →
          Serve.totalDeregs (Serve.serveRun evs) = 0)
      ∧ (Serve.serveRun evs).handlerReturned = false := by
  intro evs
  obtain ⟨h1, h2, -⟩ := serveFold_spec evs Serve.connInit
  have hret : (Serve.serveRun evs).handlerReturned = false := by
    rw [Serve.serveRun, h1]
    rfl
  have htot : Serve.totalDeregs (Serve.serveRun evs)
      = if Serve.ConnEvent.closeNotify ∈ evs then 1 else 0 := by
    rw [Serve.totalDeregs, hret]
    rw [Serve.serveRun, h2]
    simp [Serve.connInit]
  refine ⟨?_, fun hm => ?_, fun hm => ?_, hret⟩
  · rw [htot]; split <;> omega
  · rw [htot, if_pos hm]
  · rw [htot, if_neg hm]

theorem dereg_exactly_once_witness :
    Serve.totalDeregs (Serve.serveRun
      [Serve.ConnEvent.write true, Serve.ConnEvent.closeNotify,
       Serve.ConnEvent.write false]) = 1
    ∧ Serve.totalDeregs (Serve.serveRun [Serve.ConnEvent.write false]) = 0 :=
  ⟨(dereg_exactly_once [Serve.ConnEvent.write true, Serve.ConnEvent.closeNotify,
      Serve.ConnEvent.write false]).2.1 (by decide),
   (dereg_exactly_once [Serve.ConnEvent.write false]).2.2.1 (by decide)⟩

/-- C3: `setID id` with `id > endID` returns the error, leaves the
state unchanged and publishes nothing; with `id ≤ endID` it returns
success, stores `id` in `imgID` and publishes exactly one set event
`"s" ++ decimal of id`. -/
theorem setID_spec :
    ∀ (id : Nat) (s : Server.ServerState),
      (id > s.endID → Server.setID id s = (some "Invalid ID", s, []))
      ∧ (id ≤ s.endID →
          Server.setID id s
            = (none, { s with imgID := id }, ["s" ++ Nat.repr id])) := by
  intro id s
  refine ⟨fun h => ?_, fun h => ?_⟩
  · rw [Server.setID, if_pos h]
  · rw [Server.setID, if_neg (Nat.not_lt.mpr h)]

theorem setID_spec_witness :
    Server.setID 5 ⟨0, 3, none, none⟩ = (some "Invalid ID", ⟨0, 3, none, none⟩, [])
    ∧ Server.setID 2 ⟨0, 3, none, none⟩ = (none, ⟨2, 3, none, none⟩, ["s2"]) :=
  ⟨(setID_spec 5 ⟨0, 3, none, none⟩).1 (by decide),
   ((setID_spec 2 ⟨0, 3, none, none⟩).2 (by decide)).trans (by decide)⟩

lemma server_reset_events (d : DirRead) (s : Server.ServerState) :
    (Server.reset d s).2 = ["r"] := by
  cases hd : Server.loadPhotos d <;> simp [Server.reset, hd]

lemma p0_reset_events (d : DirRead) (s : P0.PState) :
    (P0.reset d s).2 = [("reset", "")] := by
  cases hd : P0.loadPhotos d { s with imgID := 0 } with
  | mk s2 r => cases r <;> simp [P0.reset, hd]

/-- C4: every `reset` call publishes exactly one reset event, whether
the directory rescan succeeds or fails, and after a failed rescan the
photo-listing read replies with the stored error instead of the stale
photo list. -/
theorem reset_broadcast :
    ∀ (d : DirRead) (s : Server.ServerState),
      (Server.reset d s).2 = ["r"]
      ∧ (∀ m : String, Server.loadPhotos d = Except.error m →
          Server.PhotosJSON (Server.reset d s).1 = Resp.errorResp m 500) := by
  intro d s
  refine ⟨server_reset_events d s, fun m hm => ?_⟩
  simp [Server.reset, hm, Server.PhotosJSON]

theorem reset_broadcast_witness :
    (Server.reset (DirRead.openErr "no dir") ⟨3, 3, some ["old.jpg"], none⟩).2 = ["r"]
    ∧ Server.PhotosJSON
        (Server.reset (DirRead.openErr "no dir") ⟨3, 3, some ["old.jpg"], none⟩).1
        = Resp.errorResp "no dir" 500 :=
  ⟨(reset_broadcast (DirRead.openErr "no dir") ⟨3, 3, some ["old.jpg"], none⟩).1,
   (reset_broadcast (DirRead.openErr "no dir") ⟨3, 3, some ["old.jpg"], none⟩).2
     "no dir" rfl⟩

/-- C5: in the `part_000` variant, after a reset on a photo directory
whose non-directory entries are exactly `a.jpg` and `b.jpg`, `endID`
is 1 and `imgID` is 0, and the listing returns both file names with
id 0; in general a successful reset recomputes `endID` as the count of
non-directory entries minus one.  The `server.go` variant, by contrast,
never assigns `endID`: its `reset` leaves `endID` exactly as it was. -/
theorem p0_reset_recomputes_endID :
    (∀ s : P0.PState,
      (P0.reset (DirRead.stat true [⟨"a.jpg", false⟩, ⟨"b.jpg", false⟩]) s).1.endID = 1
      ∧ (P0.reset (DirRead.stat true [⟨"a.jpg", false⟩, ⟨"b.jpg", false⟩]) s).1.imgID = 0
      ∧ P0.PhotosJSON
          (P0.reset (DirRead.stat true [⟨"a.jpg", false⟩, ⟨"b.jpg", false⟩]) s).1
          = Resp.okResp ["a.jpg", "b.jpg"] 0)
    ∧ (∀ (entries : List FileInfo) (s : P0.PState),
        1 ≤ (entries.filter (fun fi => !fi.isDir)).length →
        (entries.filter (fun fi => !fi.isDir)).length < P0.U64 →
        (P0.reset (DirRead.stat true entries) s).1.endID
          = (entries.filter (fun fi => !fi.isDir)).length - 1)
    ∧ (∀ (d : DirRead) (s : Server.ServerState),
        (Server.reset d s).1.endID = s.endID) := by
  refine ⟨fun s => ⟨rfl, rfl, rfl⟩, fun entries s h1 h2 => ?_, fun d s => ?_⟩
  · simp only [P0.reset, P0.loadPhotos, if_true, List.length_map]
    have hU : P0.U64 = 18446744073709551616 := by norm_num [P0.U64]
    rw [hU]
    rw [hU] at h2
    omega
  · cases hd : Server.loadPhotos d <;> simp [Server.reset, hd]

theorem p0_reset_recomputes_endID_witness :
    (P0.reset (DirRead.stat true [⟨"a.jpg", false⟩, ⟨"b.jpg", false⟩])
        ⟨7, 7, none, none⟩).1.endID = 1
    ∧ (P0.reset (DirRead.stat true [⟨"c.jpg", false⟩, ⟨"sub", true⟩])
        ⟨0, 0, none, none⟩).1.endID
        = (([⟨"c.jpg", false⟩, ⟨"sub", true⟩] : List FileInfo).filter
            (fun fi => !fi.isDir)).length - 1 :=
  ⟨(p0_reset_recomputes_endID.1 ⟨7, 7, none, none⟩).1,
   p0_reset_recomputes_endID.2.1 [⟨"c.jpg", false⟩, ⟨"sub", true⟩]
     ⟨0, 0, none, none⟩ (by decide) (by decide)⟩

/-- C10: in the `part_000` variant, a reset whose rescan finds zero
non-directory entries assigns `endID = uint64(0) - 1 = 2 ^ 64 - 1` by
unsigned wraparound, after which `setID id` passes the bound check for
every representable `id`, stores it and publishes a set event, even
though no photos exist. -/
theorem p0_empty_dir_wraparound :
    ∀ (s : P0.PState) (id : Nat), id < 2 ^ 64 →
      (P0.reset (DirRead.stat true []) s).1.endID = 2 ^ 64 - 1
      ∧ P0.setID id (P0.reset (DirRead.stat true []) s).1
          = (none, { (P0.reset (DirRead.stat true []) s).1 with imgID := id },
             [("set", Nat.repr id)]) := by
  intro s id hid
  have hend : (P0.reset (DirRead.stat true []) s).1.endID = 2 ^ 64 - 1 := rfl
  refine ⟨hend, ?_⟩
  have hcond : ¬ (id > (P0.reset (DirRead.stat true []) s).1.endID) := by
    rw [hend]
    omega
  rw [P0.setID, if_neg hcond]

theorem p0_empty_dir_wraparound_witness :
    (P0.reset (DirRead.stat true []) ⟨0, 0, none, none⟩).1.endID = 2 ^ 64 - 1
    ∧ P0.setID 123456789 (P0.reset (DirRead.stat true []) ⟨0, 0, none, none⟩).1
        = (none,
           { (P0.reset (DirRead.stat true []) ⟨0, 0, none, none⟩).1 with
               imgID := 123456789 },
           [("set", Nat.repr 123456789)]) :=
  p0_empty_dir_wraparound ⟨0, 0, none, none⟩ 123456789 (by decide)

/-- C6: every event reaches the `/listen` stream framed as
`data: <payload>\n\n`: in `server.go` the reset publish produces the
frame with payload `"r"` (tag byte `r`, empty body) and the set publish
the frame whose payload is tag byte `s` followed by the decimal of the
new index; in the `part_000` variant the reset announcement is a
dedicated `reset` event-type with empty data and the set announcement's
data is the decimal of the new index. -/
theorem wire_framing :
    (∀ (d : DirRead) (s : Server.ServerState),
      ((Server.reset d s).2).map Server.frame = ["data: r\n\n"])
    ∧ (∀ (id : Nat) (s : Server.ServerState), id ≤ s.endID →
      ((Server.setID id s).2.2).map Server.frame
        = ["data: " ++ ("s" ++ Nat.repr id) ++ "\n\n"])
    ∧ (Server.eventTag "r" = ['r'] ∧ Server.eventBody "r" = [])
    ∧ (∀ id : Nat, Server.eventTag ("s" ++ Nat.repr id) = ['s']
        ∧ Server.eventBody ("s" ++ Nat.repr id) = (Nat.repr id).data)
    ∧ (∀ (d : DirRead) (s : P0.PState),
      ((P0.reset d s).2).map (fun ev => P0.sseFrame ev.1 ev.2)
        = ["event: reset\ndata: \n\n"])
    ∧ (∀ (id : Nat) (s : P0.PState), id ≤ s.endID →
      ((P0.setID id s).2.2).map (fun ev => P0.sseFrame ev.1 ev.2)
        = ["event: set\ndata: " ++ Nat.repr id ++ "\n\n"]) := by
  refine ⟨fun d s => ?_, fun id s h => ?_, ⟨rfl, rfl⟩, fun id => ?_,
    fun d s => ?_, fun id s h => ?_⟩
  · rw [server_reset_events]
    rfl
  · rw [Server.setID, if_neg (Nat.not_lt.mpr h)]
    rfl
  · constructor
    · simp [Server.eventTag, string_data_append]
    · simp [Server.eventBody, string_data_append]
  · rw [p0_reset_events]
    decide
  · rw [P0.setID, if_neg (Nat.not_lt.mpr h)]
    have hlit : ((("event: " ++ "set" ++ "\n") ++ "data: ") : String)
        = "event: set\ndata: " := rfl
    simp only [List.map_cons, List.map_nil, P0.sseFrame]
    rw [if_neg (by decide : ¬ (("set" : String) = ""))]
    rw [hlit]

theorem wire_framing_witness :
    ((Server.setID 3 ⟨0, 9, none, none⟩).2.2).map Server.frame
      = ["data: " ++ ("s" ++ Nat.repr 3) ++ "\n\n"]
    ∧ ((P0.setID 3 ⟨0, 9, none, none⟩).2.2).map (fun ev => P0.sseFrame ev.1 ev.2)
      = ["event: set\ndata: " ++ Nat.repr 3 ++ "\n\n"] :=
  ⟨wire_framing.2.1 3 ⟨0, 9, none, none⟩ (by decide),
   wire_framing.2.2.2.2.2 3 ⟨0, 9, none, none⟩ (by decide)⟩


lemma pair_check_false (u p : List Nat) : ∀ pair : List (List Nat),
    pair ≠ [u, p] →
    (pair.length == 2 && pair.getD 0 [] == u && pair.getD 1 [] == p) = false := by
  intro pair hne
  match pair with
  | [] => rfl
  | [a] => rfl
  | [a, b] =>
    have hab : ¬ (a = u ∧ b = p) := by
      rintro ⟨ha, hb⟩
      exact hne (by rw [ha, hb])
    by_cases ha : a = u
    · by_cases hb : b = p
      · exact absurd ⟨ha, hb⟩ hab
      · simp [hb]
    · simp [ha]
  | a :: b :: c :: rest =>
    have hlen : ((a :: b :: c :: rest).length == 2) = false := by
      rw [beq_eq_false_iff_ne]
      simp
    rw [hlen]
    rfl

/-- C9: a `/master` request whose `Authorization` header does not start
with `"Basic "`, whose remainder does not base64-decode, or whose
decoded bytes do not split at the first colon into exactly the
configured user and password receives the 401 response carrying
`WWW-Authenticate: Basic realm=Restricted`, with no event published and
no show-state mutation; a request carrying the correct Basic
credentials (`base64("gordon:secret!") = "Z29yZG9uOnNlY3JldCE="`) is
delegated to the wrapped handler. -/
theorem basic_auth_contract :
    ∀ (h : Server.HResponse) (auth : String),
      (¬ auth.data.take 6 = "Basic ".data →
        Server.BasicAuth h Server.userBytes Server.passBytes auth
          = Server.unauthorized)
      ∧ (Server.decodeB64 (String.mk (auth.data.drop 6)) = none →
        Server.BasicAuth h Server.userBytes Server.passBytes auth
          = Server.unauthorized)
      ∧ (∀ payload : List Nat,
          Server.decodeB64 (String.mk (auth.data.drop 6)) = some payload →
          Server.splitN2 payload 58 ≠ [Server.userBytes, Server.passBytes] →
          Server.BasicAuth h Server.userBytes Server.passBytes auth
            = Server.unauthorized)
      ∧ (Server.unauthorized.status = 401
          ∧ Server.unauthorized.wwwAuth = some "Basic realm=Restricted"
          ∧ Server.unauthorized.published = []
          ∧ Server.unauthorized.mutated = false)
      ∧ Server.BasicAuth h Server.userBytes Server.passBytes
          ("Basic " ++ "Z29yZG9uOnNlY3JldCE=") = h := by
  intro h auth
  refine ⟨fun h1 => ?_, fun h2 => ?_, fun payload h3 h4 => ?_,
    ⟨rfl, rfl, rfl, rfl⟩, ?_⟩
  · have hc : Server.checkAuth Server.userBytes Server.passBytes auth = false := by
      rw [Server.checkAuth, if_neg h1]
    rw [Server.BasicAuth, hc]
    rfl
  · by_cases h1 : auth.data.take 6 = "Basic ".data
    · have hc : Server.checkAuth Server.userBytes Server.passBytes auth = false := by
        rw [Server.checkAuth, if_pos h1, h2]
      rw [Server.BasicAuth, hc]
      rfl
    · have hc : Server.checkAuth Server.userBytes Server.passBytes auth = false := by
        rw [Server.checkAuth, if_neg h1]
      rw [Server.BasicAuth, hc]
      rfl
  · by_cases h1 : auth.data.take 6 = "Basic ".data
    · have hc : Server.checkAuth Server.userBytes Server.passBytes auth = false := by
        rw [Server.checkAuth, if_pos h1, h3]
        exact pair_check_false Server.userBytes Server.passBytes
          (Server.splitN2 payload 58) h4
      rw [Server.BasicAuth, hc]
      rfl
    · have hc : Server.checkAuth Server.userBytes Server.passBytes auth = false := by
        rw [Server.checkAuth, if_neg h1]
      rw [Server.BasicAuth, hc]
      rfl
  · have hc : Server.checkAuth Server.userBytes Server.passBytes
        ("Basic " ++ "Z29yZG9uOnNlY3JldCE=") = true := by decide
    rw [Server.BasicAuth, hc]
    rfl

theorem basic_auth_contract_witness :
    Server.BasicAuth ⟨200, none, ["s1"], true⟩ Server.userBytes Server.passBytes ""
      = Server.unauthorized
    ∧ Server.BasicAuth ⟨200, none, ["s1"], true⟩ Server.userBytes Server.passBytes
        "Basic $$$$" = Server.unauthorized
    ∧ Server.BasicAuth ⟨200, none, ["s1"], true⟩ Server.userBytes Server.passBytes
        "Basic Z29yZG9u" = Server.unauthorized
    ∧ Server.BasicAuth ⟨200, none, ["s1"], true⟩ Server.userBytes Server.passBytes
        ("Basic " ++ "Z29yZG9uOnNlY3JldCE=") = ⟨200, none, ["s1"], true⟩ :=
  ⟨(basic_auth_contract ⟨200, none, ["s1"], true⟩ "").1 (by decide),
   (basic_auth_contract ⟨200, none, ["s1"], true⟩ "Basic $$$$").2.1 (by decide),
   (basic_auth_contract ⟨200, none, ["s1"], true⟩ "Basic Z29yZG9u").2.2.1
     [103, 111, 114, 100, 111, 110] (by decide) (by decide),
   (basic_auth_contract ⟨200, none, ["s1"], true⟩
     ("Basic " ++ "Z29yZG9uOnNlY3JldCE=")).2.2.2.2⟩
